import Mathlib

/-!
# Verification of the Motoko/Rust LLDB type-system bridge

Shallow embedding of the type-system core implemented in
`RustLanguageRuntime.cpp` (classes `MotokoType`, `MotokoAggregateBase`,
`MotokoTuple`, `MotokoStruct`, `MotokoUnion`, `MotokoEnum`, `MotokoPointer`,
`MotokoArray`, `MotokoTypedef`, `MotokoFunction`, `MotokoIntegral`,
`MotokoBool`, `MotokoFloat`, `MotokoCLikeEnum`) and the `MotokoASTContext`
registry operations, together with `RustLanguageRuntime::GetDynamicTypeAndAddress`
and the C-ABI declaration synthesizer (`GetCABITypeDeclaration` plus
`TypeNameMap::Tag` from `RustASTContext.h`).

Modelling conventions:
* A `CompilerType` is an optional `Handle`; an invalid `CompilerType()` is
  `none`.  A handle records the identity of the owning type-system
  instance (`sys`) and the index of the node in that instance's arena
  (`node`); whether the owning instance is a Motoko/Rust AST context
  (the `llvm::dyn_cast_or_null<MotokoASTContext>` test) is a property of
  the instance, `sysIsMotoko`.
* The mutable arenas of all type-system instances form a `World`
  (`regs.get? i` is the instance with identity `i`); C++ in-place
  mutation becomes `World → World` functions.
* Recursions that follow `CompilerType` references (child counting,
  byte sizes, ABI synthesis) can diverge in C++ on cyclic graphs, so the
  embedding takes explicit fuel; every theorem either holds for all fuel
  or requests enough fuel for the shape at hand.
-/

namespace MotokoModel

/-- A compiler-type handle: the identity of the owning type-system
instance and the arena slot of the node. -/
structure Handle where
  sys : Nat
  node : Nat
deriving DecidableEq, Repr

/-- `CompilerType`: `none` is the invalid/empty `CompilerType()`. -/
abbrev CompilerType := Option Handle

/-- One field of an aggregate (`MotokoAggregateBase::Field`): name
(empty for tuple slots), field type, byte offset. -/
structure Field where
  fname : String
  ftype : CompilerType
  foffset : Nat
deriving DecidableEq, Repr

/-- Which concrete aggregate subclass a node is.  `enum_` carries the
discriminant bookkeeping of `MotokoEnum`: discriminant offset and byte
size, the default-variant index `m_default` (`-1` = none), and the
discriminant-value → field-index map `m_discriminants`. -/
inductive AggKind where
  | tuple
  | struct_
  | union_
  | enum_ (discrOffset : Nat) (discrByteSize : Nat)
          (mdefault : Int) (discriminants : List (Nat × Int))
deriving DecidableEq, Repr

/-- A type node, the closed variant set of `MotokoType` subclasses. -/
inductive MotokoNode where
  | bool_ (name : String)
  | integral (name : String) (isSigned : Bool) (byteSize : Nat) (isChar : Bool)
  | float_ (name : String) (byteSize : Nat)
  | clikeEnum (name : String) (underlying : CompilerType)
              (values : List (Nat × String))
  | pointer (name : String) (pointee : CompilerType) (byteSize : Nat)
  | array (name : String) (length : Nat) (elem : CompilerType)
  | typedef (name : String) (underlying : CompilerType)
  | function (name : String) (byteSize : Nat) (ret : CompilerType)
             (args : List CompilerType) (targs : List CompilerType)
  | aggregate (kind : AggKind) (name : String) (byteSize : Nat)
              (fields : List Field) (hasDiscr : Bool) (targs : List CompilerType)
deriving DecidableEq, Repr

/-- One type-system instance: whether it is a Motoko/Rust AST context
(what `llvm::dyn_cast_or_null<MotokoASTContext>` tests), and its node
arena. -/
structure Registry where
  isMotoko : Bool
  nodes : List MotokoNode
deriving DecidableEq, Repr

/-- The type-system instances of the session, indexed by identity. -/
structure World where
  regs : List Registry
deriving DecidableEq, Repr

/-- Whether the type system owning a handle is a Motoko AST context: the
`dyn_cast_or_null<MotokoASTContext>` check. -/
def sysIsMotoko (w : World) (h : Handle) : Bool :=
  match w.regs.get? h.sys with
  | some r => r.isMotoko
  | none => false

/-- Dereference the opaque node pointer of a handle
(`static_cast<MotokoType *>(type)`). -/
def lookupHandle (w : World) (h : Handle) : Option MotokoNode :=
  (w.regs.get? h.sys).bind (fun r => r.nodes.get? h.node)

/-- Dereference a `CompilerType`'s opaque pointer; `none` for the invalid
type (the C++ `if (!type)` guards). -/
def resolve (w : World) (t : CompilerType) : Option MotokoNode :=
  t.bind (fun h => lookupHandle w h)

/-- Replace the node a handle points at, if the slot exists. -/
def World.updateNode (w : World) (h : Handle) (f : MotokoNode → MotokoNode) :
    World :=
  match w.regs.get? h.sys with
  | none => w
  | some r =>
    match r.nodes.get? h.node with
    | none => w
    | some n => ⟨w.regs.set h.sys ⟨r.isMotoko, r.nodes.set h.node (f n)⟩⟩

/-- `MotokoType::IsAggregateType` (true for arrays and all aggregates). -/
def MotokoNode.isAggregateType : MotokoNode → Bool
  | .array .. => true
  | .aggregate .. => true
  | _ => false

/-- `AsAggregate()` succeeds: the node is a `MotokoAggregateBase`
(struct, tuple, union or enum, but not an array). -/
def MotokoNode.isAggregateBase : MotokoNode → Bool
  | .aggregate .. => true
  | _ => false

/-- `MotokoASTContext::IsVoidType`: the node is a `MotokoTuple` with a
nonempty name equal to `"()"` and zero fields. -/
def motokoIsVoidType (w : World) (t : CompilerType) : Bool :=
  match resolve w t with
  | some (.aggregate .tuple name _ fields _ _) =>
    !name.isEmpty && name == "()" && fields.length == 0
  | _ => false

/-- `MotokoASTContext::GetNumChildren`, fuel-indexed: the C++ recurses
through `CompilerType::GetNumChildren` on pointees and typedef targets. -/
def getNumChildren (w : World) : Nat → CompilerType → Nat
  | 0, _ => 0
  | fuel + 1, t =>
    match resolve w t with
    | some (.pointer _ pointee _) =>
      let r := getNumChildren w fuel pointee
      -- If the pointee is not an aggregate, return 1 because the
      -- pointer has a child.
      if r = 0 then 1 else r
    | some (.array _ len _) => len
    | some (.typedef _ u) => getNumChildren w fuel u
    | some (.aggregate _ _ _ fields _ _) => fields.length
    | _ => 0

/-- `MotokoType::ByteSize`, fuel-indexed (array byte size multiplies the
element's byte size, typedef delegates). -/
def getByteSize (w : World) : Nat → CompilerType → Nat
  | 0, _ => 0
  | fuel + 1, t =>
    match resolve w t with
    | some (.bool_ _) => 1
    | some (.integral _ _ sz _) => sz
    | some (.float_ _ sz) => sz
    | some (.clikeEnum ..) => 4
    | some (.pointer _ _ sz) => sz
    | some (.array _ len e) => getByteSize w fuel e * len
    | some (.typedef _ u) => getByteSize w fuel u
    | some (.function _ sz _ _ _) => sz
    | some (.aggregate _ _ sz _ _ _) => sz
    | none => 0

/-- Result of `MotokoASTContext::GetChildCompilerTypeAtIndex`: the returned
type together with the out-parameters the claims care about. -/
structure ChildInfo where
  childType : CompilerType
  childName : String
  childByteSize : Nat
  childByteOffset : Nat
  isDerefOfParent : Bool
deriving DecidableEq, Repr

/-- The all-invalid result every early-exit path of
`GetChildCompilerTypeAtIndex` produces. -/
def ChildInfo.empty : ChildInfo := ⟨none, "", 0, 0, false⟩

/-- `MotokoASTContext::GetChildCompilerTypeAtIndex`, fuel-indexed.
`parentName` models `valobj ? valobj->GetName() : NULL`. -/
def getChildAtIndex (w : World) :
    Nat → CompilerType → Nat → Bool → Bool → Option String → ChildInfo
  | 0, _, _, _, _, _ => ChildInfo.empty
  | fuel + 1, t, idx, transparentPointers, ignoreArrayBounds, parentName =>
    match resolve w t with
    | some (.aggregate _ _ _ fields _ _) =>
      -- GetFieldAtIndex + the aggregate branch.
      match fields.get? idx with
      | some f =>
        { childType := f.ftype, childName := f.fname,
          childByteSize := getByteSize w fuel f.ftype,
          childByteOffset := f.foffset, isDerefOfParent := false }
      | none => ChildInfo.empty
    | some (.pointer _ pointee _) =>
      if pointee.isNone || motokoIsVoidType w pointee then
        ChildInfo.empty
      else if transparentPointers &&
          (resolve w pointee).elim false MotokoNode.isAggregateType then
        let inner := getChildAtIndex w fuel pointee idx transparentPointers
          ignoreArrayBounds parentName
        -- the recursive call receives a temporary deref flag
        { inner with isDerefOfParent := false }
      else
        let nm := match parentName with
          | some p => "*" ++ p
          | none => ""
        if idx = 0 && pointee.isSome then
          { childType := pointee, childName := nm,
            childByteSize := getByteSize w fuel pointee,
            childByteOffset := 0, isDerefOfParent := true }
        else
          { ChildInfo.empty with childName := nm, isDerefOfParent := true }
    | some (.array _ len elem) =>
      if ignoreArrayBounds || idx < len then
        if elem.isSome then
          let esz := getByteSize w fuel elem
          { childType := elem, childName := "[" ++ toString idx ++ "]",
            childByteSize := esz, childByteOffset := idx * esz,
            isDerefOfParent := false }
        else ChildInfo.empty
      else ChildInfo.empty
    | some (.typedef _ u) =>
      getChildAtIndex w fuel u idx transparentPointers ignoreArrayBounds
        parentName
    | _ => ChildInfo.empty

/-- `unordered_map::find` over the association-list model of
`MotokoEnum::m_discriminants`. -/
def assocGet (m : List (Nat × Int)) (k : Nat) : Option Int :=
  match m with
  | [] => none
  | (k', v) :: rest => if k' = k then some v else assocGet rest k

/-- `unordered_map::operator[]= `: overwrite an existing binding,
otherwise insert. -/
def assocSet (m : List (Nat × Int)) (k : Nat) (v : Int) : List (Nat × Int) :=
  match m with
  | [] => [(k, v)]
  | (k', v') :: rest =>
    if k' = k then (k, v) :: rest else (k', v') :: assocSet rest k v

/-- `FieldAt(idx)->m_type` for a (possibly `-1`) signed index; a
non-existent field yields the invalid type. -/
def fieldTypeAt (fields : List Field) (i : Int) : CompilerType :=
  if i < 0 then none
  else match fields.get? i.toNat with
    | some f => f.ftype
    | none => none

/-- `MotokoEnum::FindEnumVariant`: look the discriminant up in the map,
fall back on the default index, fail with the invalid type when the
default is `-1`. -/
def enumFindVariant (discriminants : List (Nat × Int)) (mdefault : Int)
    (fields : List Field) (d : Nat) : CompilerType :=
  match assocGet discriminants d with
  | some i => fieldTypeAt fields i
  | none =>
    if mdefault = -1 then none else fieldTypeAt fields mdefault

/-- `MotokoASTContext::FindEnumVariant`: guard the invalid type, check the
owning type system is a Motoko AST context, dispatch to the enum node. -/
def findEnumVariant (w : World) (t : CompilerType) (d : Nat) : CompilerType :=
  match t with
  | none => none
  | some h =>
    if sysIsMotoko w h then
      match lookupHandle w h with
      | some (.aggregate (.enum_ _ _ mdefault discs) _ _ fields _ _) =>
        enumFindVariant discs mdefault fields d
      | _ => none
    else none

/-- `MotokoASTContext::GetEnumDiscriminantLocation`: `some (offset, size)`
models the `true` return with both out-parameters set. -/
def getEnumDiscriminantLocation (w : World) (t : CompilerType) :
    Option (Nat × Nat) :=
  match t with
  | none => none
  | some h =>
    if sysIsMotoko w h then
      match lookupHandle w h with
      | some (.aggregate (.enum_ off sz _ _) _ _ _ _ _) => some (off, sz)
      | _ => none
    else none

/-- `MotokoASTContext::AddFieldToStruct` invoked on the instance with
identity `thisId`: append the field, and for enums record the
discriminant of the most recently added field
(`MotokoEnum::RecordDiscriminant`).  Note the C++ only checks that the
handle's type system `dyn_cast`s to `MotokoASTContext`; it never compares
it with `this`, so `thisId` is unused. -/
def addFieldToStruct (w : World) (_thisId : Nat) (t : CompilerType)
    (name : String) (fieldType : CompilerType) (byteOffset : Nat)
    (isDefault : Bool) (discriminant : Nat) : World :=
  match t with
  | none => w
  | some h =>
    if sysIsMotoko w h then
      match lookupHandle w h with
      | some (.aggregate k nm sz fields hd targs) =>
        let fields' := fields ++ [⟨name, fieldType, byteOffset⟩]
        let value : Int := Int.ofNat fields'.length - 1
        let k' := match k with
          | .enum_ off dsz mdefault discs =>
            if isDefault then AggKind.enum_ off dsz value discs
            else AggKind.enum_ off dsz mdefault (assocSet discs discriminant value)
          | other => other
        World.updateNode w h (fun _ => .aggregate k' nm sz fields' hd targs)
      | _ => w
    else w

/-- The renaming loop of `MotokoTuple::DropDiscriminant`: field `i` gets
the decimal spelling of `i` as its name. -/
def renameFields : Nat → List Field → List Field
  | _, [] => []
  | i, f :: rest => { f with fname := toString i } :: renameFields (i + 1) rest

/-- `DropDiscriminant` on one node: the base version pops the leading
field when the has-discriminant flag is set and clears the flag; the
`MotokoTuple` override additionally renames every remaining field to its
decimal index. -/
def dropDiscriminantNode : MotokoNode → MotokoNode
  | .aggregate k name sz fields hd targs =>
    let fields1 := if hd then fields.tail else fields
    let fields2 := match k with
      | .tuple => renameFields 0 fields1
      | _ => fields1
    .aggregate k name sz fields2 false targs
  | n => n

/-- One iteration of `MotokoEnum::FinishInitialization`: drop the
discriminant when the payload node is an aggregate (`AsAggregate()`
succeeds), leave it alone otherwise. -/
def guardDrop (n : MotokoNode) : MotokoNode :=
  if n.isAggregateBase then dropDiscriminantNode n else n

/-- The loop of `MotokoEnum::FinishInitialization`: for every field,
drop the discriminant of its payload node when that node is an
aggregate. -/
def dropFieldDiscriminants (w : World) : List Field → World
  | [] => w
  | f :: rest =>
    let w' := match f.ftype with
      | none => w
      | some h => World.updateNode w h guardDrop
    dropFieldDiscriminants w' rest

/-- `MotokoASTContext::FinishAggregateInitialization`: guard invalid
handles and foreign type systems; `FinishInitialization` is a no-op for
every aggregate except `MotokoEnum`, which drops the discriminant of each
variant payload. -/
def finishAggregateInitialization (w : World) (t : CompilerType) : World :=
  match t with
  | none => w
  | some h =>
    if sysIsMotoko w h then
      match lookupHandle w h with
      | some (.aggregate (.enum_ _ _ _ _) _ _ fields _ _) =>
        dropFieldDiscriminants w fields
      | _ => w
    else w

/-- The external collaborators of
`RustLanguageRuntime::GetDynamicTypeAndAddress`: the value's static
compiler type, its load address (`none` models `LLDB_INVALID_ADDRESS`),
whether an execution-context process exists, and the process-memory
reader (`none` models a failed `Status`). -/
structure ValueModel where
  ctype : CompilerType
  loadAddr : Option Nat
  hasProcess : Bool
  readMem : Nat → Nat → Option Nat

/-- `RustLanguageRuntime::GetDynamicTypeAndAddress`: `some (ty, addr)`
models the `true` return with the resolved variant type and the unchanged
address; `none` models every `return false` path ("no dynamic type"). -/
def getDynamicTypeAndAddress (w : World) (v : ValueModel) :
    Option (CompilerType × Nat) :=
  match v.ctype with
  | none => none
  | some h =>
    if sysIsMotoko w h then
      match getEnumDiscriminantLocation w v.ctype with
      | none => none
      | some (off, sz) =>
        match v.loadAddr with
        | none => none
        | some addr =>
          if v.hasProcess then
            match v.readMem (addr + off) sz with
            | none => none
            | some d => some (findEnumVariant w v.ctype d, addr)
          else none
    else none

/-- Lookup in the `TypeNameMap::name_map`, keyed by node identity. -/
def tagLookup : List (Handle × String) → Handle → Option String
  | [], _ => none
  | (h', s) :: rest, h => if h' = h then some s else tagLookup rest h

/-- `RustASTContext::TypeNameMap` (ABI-synthesis working set): the node →
tag-name map, the fresh-tag counter, and the accumulated buffer of
struct/union/enum definitions. -/
structure TypeNameMap where
  nameMap : List (Handle × String)
  counter : Nat
  typedefs : String
deriving DecidableEq, Repr

/-- `TypeNameMap::Tag`: first encounter assigns `"tag" ++ counter`,
records it and reports `true`; later encounters return the recorded tag
and report `false`. -/
def TypeNameMap.tag (nm : TypeNameMap) (h : Handle) :
    Bool × String × TypeNameMap :=
  match tagLookup nm.nameMap h with
  | some s => (false, s, nm)
  | none =>
    let tagname := "tag" ++ toString nm.counter
    (true, tagname,
      { nameMap := nm.nameMap ++ [(h, tagname)], counter := nm.counter + 1,
        typedefs := nm.typedefs })

/-- Pending work of the ABI synthesizer: render one type declarator, the
field list of an aggregate (`GetFieldsCABITypeDeclaration` with its
`argno` counter), or a function's argument list. -/
inductive CABIJob where
  | one (t : CompilerType) (varname : String)
  | fieldList (argno : Nat) (fs : List Field)
  | argList (first : Bool) (ts : List CompilerType)

/-- The mutually recursive `GetCABITypeDeclaration` methods, fuel-indexed
and threaded through the `TypeNameMap`. -/
def runCABI (w : World) : Nat → TypeNameMap → CABIJob → String × TypeNameMap
  | 0, nm, _ => ("", nm)
  | fuel + 1, nm, .one t varname =>
    match t with
    | none => ("", nm)
    | some h =>
      match lookupHandle w h with
      | none => ("", nm)
      | some (.bool_ _) => ("bool " ++ varname, nm)
      | some (.integral _ isSigned sz _) =>
        ((if isSigned then "__INT" else "__UINT") ++ toString (8 * sz) ++
          "_TYPE__ " ++ varname, nm)
      | some (.float_ _ sz) =>
        ((if sz = 4 then "float " else "double ") ++ varname, nm)
      | some (.clikeEnum _ u _) => runCABI w fuel nm (.one u varname)
      | some (.pointer _ p _) =>
        match resolve w p with
        | some (.function ..) =>
          -- pointer-to-function renders as the function's own declarator
          runCABI w fuel nm (.one p varname)
        | _ =>
          let r := runCABI w fuel nm (.one p "")
          (r.1 ++ "* " ++ varname, r.2)
      | some (.array _ len e) =>
        let r := runCABI w fuel nm (.one e varname)
        (r.1 ++ "[" ++ toString len ++ "]", r.2)
      | some (.typedef _ u) => runCABI w fuel nm (.one u varname)
      | some (.function _ _ ret args _) =>
        let r := runCABI w fuel nm (.one ret "")
        let a := runCABI w fuel r.2 (.argList true args)
        (r.1 ++ " (*" ++ varname ++ ")(" ++ a.1 ++ ")", a.2)
      | some (.aggregate k _ _ fields _ _) =>
        match nm.tag h with
        | (false, tagname, nm1) => (tagname ++ " " ++ varname, nm1)
        | (true, tagname, nm1) =>
          let fs := runCABI w fuel nm1 (.fieldList 0 fields)
          let defn := match k with
            | .union_ => "  union " ++ tagname ++ "\x7b" ++ fs.1 ++ " \x7d;\n"
            | .enum_ off dsz _ _ =>
              "struct " ++ tagname ++ "\x7b " ++
                (if fields.length > 1 && off = 0 then
                  "int" ++ toString (8 * dsz) ++ "_t __discr; " else "") ++
                fs.1 ++ " \x7d;\n"
            | _ => "  struct " ++ tagname ++ "\x7b" ++ fs.1 ++ " \x7d;\n"
          (tagname ++ " " ++ varname,
            { fs.2 with typedefs := fs.2.typedefs ++ defn })
  | _ + 1, nm, .fieldList _ [] => ("", nm)
  | fuel + 1, nm, .fieldList argno (f :: rest) =>
    let p := if f.fname.isEmpty
      then ("__" ++ toString argno, argno + 1)
      else ("_" ++ f.fname, argno)
    let s := runCABI w fuel nm (.one f.ftype p.1)
    let srest := runCABI w fuel s.2 (.fieldList p.2 rest)
    (s.1 ++ "; " ++ srest.1, srest.2)
  | _ + 1, nm, .argList _ [] => ("", nm)
  | fuel + 1, nm, .argList first (t :: rest) =>
    let s := runCABI w fuel nm (.one t "")
    let srest := runCABI w fuel s.2 (.argList false rest)
    ((if first then "" else ", ") ++ s.1 ++ srest.1, srest.2)

/-- `MotokoASTContext::GetCABITypeDeclaration`: guard the invalid type and
foreign type systems (`none` models the `false` return), then run the
node's renderer. -/
def astGetCABITypeDeclaration (w : World) (fuel : Nat) (t : CompilerType)
    (varname : String) (nm : TypeNameMap) : Option (String × TypeNameMap) :=
  match t with
  | none => none
  | some h =>
    if sysIsMotoko w h then some (runCABI w fuel nm (.one t varname)) else none

/-- Whether `pat` is a prefix of `cs` (character-list version, so that
concrete counts reduce in the kernel). -/
def isPrefixList : List Char → List Char → Bool
  | [], _ => true
  | _ :: _, [] => false
  | p :: ps, c :: cs => p == c && isPrefixList ps cs

/-- Number of positions where the pattern occurs in the character list. -/
def countOccsList (pat : List Char) : List Char → Nat
  | [] => 0
  | c :: rest =>
    (if isPrefixList pat (c :: rest) then 1 else 0) + countOccsList pat rest

/-- Number of occurrences of a (nonempty) pattern in a string. -/
def countOccs (s pat : String) : Nat := countOccsList pat.data s.data

/-! ### Concrete example worlds used by witnesses and counterexamples -/

/-- A signed 32-bit integer node. -/
def exI32 : MotokoNode := .integral "i32" true 4 false

/-- A query-oriented example registry: an integer, a two-field struct,
pointers to both, an array, a typedef, the unit tuple, a pointer to the
unit tuple, an unnamed empty tuple, a one-field `"()"` tuple, and a
`"()"`-named struct. -/
def exQueryW : World :=
  ⟨[⟨true,
    [exI32,
     .aggregate .struct_ "S" 8 [⟨"x", some ⟨0, 0⟩, 0⟩, ⟨"y", some ⟨0, 0⟩, 4⟩]
       false [],
     .pointer "ptrI32" (some ⟨0, 0⟩) 8,
     .pointer "ptrS" (some ⟨0, 1⟩) 8,
     .array "arrI32" 7 (some ⟨0, 0⟩),
     .typedef ("aliasS") (some ⟨0, 1⟩),
     .aggregate .tuple "()" 0 [] false [],
     .pointer "ptrUnit" (some ⟨0, 6⟩) 8,
     .aggregate .tuple "" 0 [] false [],
     .aggregate .tuple "()" 4 [⟨"", some ⟨0, 0⟩, 0⟩] false [],
     .aggregate .struct_ "()" 0 [] false []]⟩]⟩

/-- Payload world before any field is added to the enums: an integer,
three payload aggregates still carrying their leading discriminant field
(the second one a tuple), an empty enum with a discriminant at offset 0,
and an empty enum used without a default variant. -/
def exEnumBase : World :=
  ⟨[⟨true,
    [exI32,
     .aggregate .struct_ "V0" 8 [⟨"d", some ⟨0, 0⟩, 0⟩, ⟨"a", some ⟨0, 0⟩, 4⟩]
       true [],
     .aggregate .tuple "V1" 8 [⟨"", some ⟨0, 0⟩, 0⟩, ⟨"", some ⟨0, 0⟩, 4⟩]
       true [],
     .aggregate .struct_ "Vd" 8 [⟨"d", some ⟨0, 0⟩, 0⟩] true [],
     .aggregate (.enum_ 0 1 (-1) []) "E" 8 [] false [],
     .aggregate (.enum_ 0 1 (-1) []) "F" 8 [] false []]⟩]⟩

/-- The enum world after the debug-info decoder has registered the
variants through `AddFieldToStruct`: node 4 gets `V0` (discriminant 0),
`V1` (discriminant 1) and `Vd` (default); node 5 gets only `V0` and `V1`,
with no default. -/
def exEnumBuilt : World :=
  addFieldToStruct
    (addFieldToStruct
      (addFieldToStruct
        (addFieldToStruct
          (addFieldToStruct exEnumBase 0 (some ⟨0, 4⟩) "V0" (some ⟨0, 1⟩) 0
            false 0)
          0 (some ⟨0, 4⟩) "V1" (some ⟨0, 2⟩) 0 false 1)
        0 (some ⟨0, 4⟩) "Vd" (some ⟨0, 3⟩) 0 true 0)
      0 (some ⟨0, 5⟩) "V0" (some ⟨0, 1⟩) 0 false 0)
    0 (some ⟨0, 5⟩) "V1" (some ⟨0, 2⟩) 0 false 1

/-- ABI-synthesis example: an integer, a one-field struct `S`, a function
taking `S` twice and returning `S`, an enum with two variants and its
discriminant at offset 0, an enum with two variants and its discriminant
at offset 4, and an enum with a single variant. -/
def exCABIW : World :=
  ⟨[⟨true,
    [exI32,
     .aggregate .struct_ "S" 4 [⟨"x", some ⟨0, 0⟩, 0⟩] false [],
     .function "f" 8 (some ⟨0, 1⟩) [some ⟨0, 1⟩, some ⟨0, 1⟩] [],
     .aggregate (.enum_ 0 1 (-1) [(0, 0), (1, 1)]) "E0" 8
       [⟨"A", some ⟨0, 1⟩, 0⟩, ⟨"B", some ⟨0, 1⟩, 0⟩] false [],
     .aggregate (.enum_ 4 1 (-1) [(0, 0), (1, 1)]) "E4" 8
       [⟨"A", some ⟨0, 1⟩, 0⟩, ⟨"B", some ⟨0, 1⟩, 0⟩] false [],
     .aggregate (.enum_ 0 1 (-1) [(0, 0)]) "E1" 8
       [⟨"A", some ⟨0, 1⟩, 0⟩] false []]⟩]⟩

/-- Two Motoko registry instances: instance 0 owns an integer and a
struct, instance 1 owns nothing. -/
def exTwoRegW : World :=
  ⟨[⟨true, [exI32, .aggregate .struct_ "S" 4 [⟨"x", some ⟨0, 0⟩, 0⟩] false []]⟩,
    ⟨true, []⟩]⟩

/-- A non-Motoko type system (the `dyn_cast` fails) holding the same two
nodes. -/
def exForeignW : World :=
  ⟨[⟨false, [exI32, .aggregate .struct_ "S" 4 [⟨"x", some ⟨0, 0⟩, 0⟩] false []]⟩]⟩

/-! ### Helper lemmas about arena lookups and updates -/

theorem list_set_self {α : Type} (l : List α) (i : Nat) (a : α)
    (h : l[i]? = some a) : l.set i a = l := by
  induction l generalizing i with
  | nil => simp at h
  | cons x xs ih =>
    cases i with
    | zero => simp at h; simp [h]
    | succ j =>
      simp at h
      simp [List.set, ih j h]

theorem lookupHandle_updateNode_ne (w : World) (p q : Handle)
    (g : MotokoNode → MotokoNode) (hne : q ≠ p) :
    lookupHandle (w.updateNode q g) p = lookupHandle w p := by
  cases hs : w.regs[q.sys]? with
  | none => simp [World.updateNode, hs]
  | some r =>
    cases hn : r.nodes[q.node]? with
    | none => simp [World.updateNode, hs, hn]
    | some n =>
      simp only [World.updateNode, List.get?_eq_getElem?, hs, hn]
      by_cases hsys : p.sys = q.sys
      · have hnode : p.node ≠ q.node := by
          intro hh
          exact hne (by cases p; cases q; simp_all)
        have hq : q.sys < w.regs.length := by
          obtain ⟨hlt, -⟩ := List.getElem?_eq_some.mp hs
          exact hlt
        simp only [lookupHandle, hsys, List.get?_eq_getElem?,
          List.getElem?_set_eq_of_lt _ hq, hs, Option.some_bind]
        simp only [List.getElem?_set_ne (fun hh => hnode hh.symm)]
      · simp only [lookupHandle, List.get?_eq_getElem?,
          List.getElem?_set_ne (fun hh => hsys hh.symm)]

theorem lookupHandle_updateNode_self (w : World) (p : Handle)
    (g : MotokoNode → MotokoNode) (n : MotokoNode)
    (h : lookupHandle w p = some n) :
    lookupHandle (w.updateNode p g) p = some (g n) := by
  cases hs : w.regs[p.sys]? with
  | none => simp [lookupHandle, hs] at h
  | some r =>
    simp only [lookupHandle, List.get?_eq_getElem?, hs, Option.some_bind] at h
    have hslt : p.sys < w.regs.length := by
      obtain ⟨hlt, -⟩ := List.getElem?_eq_some.mp hs
      exact hlt
    have hnlt : p.node < r.nodes.length := by
      obtain ⟨hlt, -⟩ := List.getElem?_eq_some.mp h
      exact hlt
    simp only [World.updateNode, List.get?_eq_getElem?, hs, h]
    simp only [lookupHandle, List.get?_eq_getElem?,
      List.getElem?_set_eq_of_lt _ hslt, Option.some_bind]
    simp only [List.getElem?_set_eq_of_lt _ hnlt]

theorem updateNode_of_lookup_none (w : World) (p : Handle)
    (g : MotokoNode → MotokoNode) (h : lookupHandle w p = none) :
    w.updateNode p g = w := by
  cases hs : w.regs[p.sys]? with
  | none => simp [World.updateNode, hs]
  | some r =>
    simp only [lookupHandle, List.get?_eq_getElem?, hs, Option.some_bind] at h
    simp [World.updateNode, hs, h]

theorem updateNode_of_fixed (w : World) (p : Handle)
    (g : MotokoNode → MotokoNode)
    (h : ∀ n, lookupHandle w p = some n → g n = n) :
    w.updateNode p g = w := by
  cases hs : w.regs[p.sys]? with
  | none => simp [World.updateNode, hs]
  | some r =>
    cases hn : r.nodes[p.node]? with
    | none => simp [World.updateNode, hs, hn]
    | some n =>
      have hl : lookupHandle w p = some n := by
        simp [lookupHandle, hs, hn]
      simp only [World.updateNode, List.get?_eq_getElem?, hs, hn, h n hl]
      have h1 : r.nodes.set p.node n = r.nodes := list_set_self _ _ _ hn
      rw [h1]
      have h2 : w.regs.set p.sys ⟨r.isMotoko, r.nodes⟩ = w.regs := by
        have := list_set_self w.regs p.sys r hs
        simpa using this
      rw [h2]

theorem sysIsMotoko_updateNode (w : World) (q : Handle)
    (g : MotokoNode → MotokoNode) (h : Handle) :
    sysIsMotoko (w.updateNode q g) h = sysIsMotoko w h := by
  cases hs : w.regs[q.sys]? with
  | none => simp [World.updateNode, hs]
  | some r =>
    cases hn : r.nodes[q.node]? with
    | none => simp [World.updateNode, hs, hn]
    | some n =>
      have hq : q.sys < w.regs.length := by
        obtain ⟨hlt, -⟩ := List.getElem?_eq_some.mp hs
        exact hlt
      simp only [World.updateNode, List.get?_eq_getElem?, hs, hn]
      by_cases hsys : h.sys = q.sys
      · simp only [sysIsMotoko, List.get?_eq_getElem?, hsys,
          List.getElem?_set_eq_of_lt _ hq, hs]
      · simp only [sysIsMotoko, List.get?_eq_getElem?,
          List.getElem?_set_ne (fun hh => hsys hh.symm)]

theorem sysIsMotoko_dropFieldDiscriminants (fields : List Field) (w : World)
    (h : Handle) :
    sysIsMotoko (dropFieldDiscriminants w fields) h = sysIsMotoko w h := by
  induction fields generalizing w with
  | nil => rfl
  | cons f rest ih =>
    cases hft : f.ftype with
    | none => simp only [dropFieldDiscriminants, hft]; exact ih w
    | some q =>
      simp only [dropFieldDiscriminants, hft]
      rw [ih (w.updateNode q guardDrop), sysIsMotoko_updateNode]

/-! ### Lemmas about DropDiscriminant and FinishInitialization -/

theorem renameFields_length (i : Nat) (l : List Field) :
    (renameFields i l).length = l.length := by
  induction l generalizing i with
  | nil => rfl
  | cons f rest ih => simp [renameFields, ih]

theorem renameFields_idem (i : Nat) (l : List Field) :
    renameFields i (renameFields i l) = renameFields i l := by
  induction l generalizing i with
  | nil => rfl
  | cons f rest ih => simp [renameFields, ih]

theorem renameFields_map_fname (i : Nat) (l : List Field) :
    (renameFields i l).map Field.fname =
      (List.range' i l.length).map toString := by
  induction l generalizing i with
  | nil => simp [renameFields]
  | cons f rest ih => simp [renameFields, List.range', ih]

theorem guardDrop_idem (n : MotokoNode) : guardDrop (guardDrop n) = guardDrop n := by
  cases n with
  | aggregate k name sz fields hd targs =>
    cases k with
    | tuple =>
      simp [guardDrop, MotokoNode.isAggregateBase, dropDiscriminantNode,
        renameFields_idem]
    | struct_ => simp [guardDrop, MotokoNode.isAggregateBase, dropDiscriminantNode]
    | union_ => simp [guardDrop, MotokoNode.isAggregateBase, dropDiscriminantNode]
    | enum_ o s d m =>
      simp [guardDrop, MotokoNode.isAggregateBase, dropDiscriminantNode]
  | bool_ name => simp [guardDrop, MotokoNode.isAggregateBase]
  | integral name s b c => simp [guardDrop, MotokoNode.isAggregateBase]
  | float_ name b => simp [guardDrop, MotokoNode.isAggregateBase]
  | clikeEnum name u v => simp [guardDrop, MotokoNode.isAggregateBase]
  | pointer name p b => simp [guardDrop, MotokoNode.isAggregateBase]
  | array name l e => simp [guardDrop, MotokoNode.isAggregateBase]
  | typedef name u => simp [guardDrop, MotokoNode.isAggregateBase]
  | function name b r a t => simp [guardDrop, MotokoNode.isAggregateBase]

theorem dropFieldDiscriminants_lookup_of_not_mem (fields : List Field)
    (w : World) (p : Handle) (hnm : ∀ f ∈ fields, f.ftype ≠ some p) :
    lookupHandle (dropFieldDiscriminants w fields) p = lookupHandle w p := by
  induction fields generalizing w with
  | nil => rfl
  | cons f rest ih =>
    cases hft : f.ftype with
    | none =>
      simp only [dropFieldDiscriminants, hft]
      exact ih w (fun g hg => hnm g (List.mem_cons_of_mem _ hg))
    | some q =>
      have hqp : q ≠ p := by
        intro hh
        exact hnm f (List.mem_cons_self _ _) (by rw [hft, hh])
      simp only [dropFieldDiscriminants, hft]
      rw [ih _ (fun g hg => hnm g (List.mem_cons_of_mem _ hg)),
        lookupHandle_updateNode_ne _ _ _ _ hqp]

theorem dropFieldDiscriminants_lookup_cases (fields : List Field) (w : World)
    (p : Handle) (n : MotokoNode) (hn : lookupHandle w p = some n) :
    lookupHandle (dropFieldDiscriminants w fields) p = some n ∨
    lookupHandle (dropFieldDiscriminants w fields) p = some (guardDrop n) := by
  induction fields generalizing w n with
  | nil => exact Or.inl hn
  | cons f rest ih =>
    cases hft : f.ftype with
    | none =>
      simp only [dropFieldDiscriminants, hft]
      exact ih w n hn
    | some q =>
      simp only [dropFieldDiscriminants, hft]
      by_cases hqp : q = p
      · subst hqp
        have hstep := lookupHandle_updateNode_self w q guardDrop n hn
        rcases ih _ (guardDrop n) hstep with hcase | hcase
        · exact Or.inr hcase
        · rw [guardDrop_idem n] at hcase
          exact Or.inr hcase
      · refine ih _ n ?_
        rw [lookupHandle_updateNode_ne _ _ _ _ hqp]
        exact hn

theorem dropFieldDiscriminants_lookup_mem (fields : List Field) (w : World)
    (p : Handle) (f : Field) (hf : f ∈ fields) (hp : f.ftype = some p)
    (n : MotokoNode) (hn : lookupHandle w p = some n) :
    lookupHandle (dropFieldDiscriminants w fields) p = some (guardDrop n) := by
  induction fields generalizing w n with
  | nil => cases hf
  | cons f0 rest ih =>
    rcases List.mem_cons.mp hf with rfl | hfr
    · simp only [dropFieldDiscriminants, hp]
      have hstep := lookupHandle_updateNode_self w p guardDrop n hn
      rcases dropFieldDiscriminants_lookup_cases rest _ p (guardDrop n) hstep
        with hcase | hcase
      · exact hcase
      · rw [guardDrop_idem n] at hcase
        exact hcase
    · cases hft : f0.ftype with
      | none =>
        simp only [dropFieldDiscriminants, hft]
        exact ih w hfr n hn
      | some q =>
        simp only [dropFieldDiscriminants, hft]
        by_cases hqp : q = p
        · subst hqp
          have hstep := lookupHandle_updateNode_self w q guardDrop n hn
          have := ih _ hfr (guardDrop n) hstep
          rw [guardDrop_idem n] at this
          exact this
        · refine ih _ hfr n ?_
          rw [lookupHandle_updateNode_ne _ _ _ _ hqp]
          exact hn

theorem dropFieldDiscriminants_preserves_fixed (fields : List Field)
    (w : World) (p : Handle)
    (h : ∀ n, lookupHandle w p = some n → guardDrop n = n) :
    ∀ n, lookupHandle (dropFieldDiscriminants w fields) p = some n →
      guardDrop n = n := by
  induction fields generalizing w with
  | nil => exact h
  | cons f rest ih =>
    cases hft : f.ftype with
    | none =>
      simp only [dropFieldDiscriminants, hft]
      exact ih w h
    | some q =>
      simp only [dropFieldDiscriminants, hft]
      refine ih _ ?_
      by_cases hqp : q = p
      · subst hqp
        cases hq : lookupHandle w q with
        | none =>
          rw [updateNode_of_lookup_none w q guardDrop hq]
          exact h
        | some n0 =>
          intro n hlook
          rw [lookupHandle_updateNode_self w q guardDrop n0 hq] at hlook
          cases hlook
          exact guardDrop_idem n0
      · intro n hlook
        rw [lookupHandle_updateNode_ne _ _ _ _ hqp] at hlook
        exact h n hlook

theorem dropFieldDiscriminants_fixes (fields : List Field) (w : World)
    (f : Field) (hf : f ∈ fields) (p : Handle) (hp : f.ftype = some p) :
    ∀ n, lookupHandle (dropFieldDiscriminants w fields) p = some n →
      guardDrop n = n := by
  induction fields generalizing w with
  | nil => cases hf
  | cons f0 rest ih =>
    rcases List.mem_cons.mp hf with rfl | hfr
    · simp only [dropFieldDiscriminants, hp]
      refine dropFieldDiscriminants_preserves_fixed rest _ p ?_
      cases hq : lookupHandle w p with
      | none =>
        rw [updateNode_of_lookup_none w p guardDrop hq]
        intro n hlook
        rw [hq] at hlook
        cases hlook
      | some n0 =>
        intro n hlook
        rw [lookupHandle_updateNode_self w p guardDrop n0 hq] at hlook
        cases hlook
        exact guardDrop_idem n0
    · cases hft : f0.ftype with
      | none =>
        simp only [dropFieldDiscriminants, hft]
        exact ih w hfr
      | some q =>
        simp only [dropFieldDiscriminants, hft]
        exact ih _ hfr

theorem dropFieldDiscriminants_of_fixed (fields : List Field) (w : World)
    (h : ∀ f ∈ fields, ∀ q, f.ftype = some q →
      ∀ n, lookupHandle w q = some n → guardDrop n = n) :
    dropFieldDiscriminants w fields = w := by
  induction fields generalizing w with
  | nil => rfl
  | cons f rest ih =>
    cases hft : f.ftype with
    | none =>
      simp only [dropFieldDiscriminants, hft]
      exact ih w (fun g hg => h g (List.mem_cons_of_mem _ hg))
    | some q =>
      simp only [dropFieldDiscriminants, hft]
      have hfix : w.updateNode q guardDrop = w :=
        updateNode_of_fixed w q guardDrop
          (h f (List.mem_cons_self _ _) q hft)
      rw [hfix]
      exact ih w (fun g hg => h g (List.mem_cons_of_mem _ hg))

/-! ### Lemmas about the ABI synthesizer's tag map -/

/-- The tag map only ever grows during a synthesis call. -/
def MapExt (nm1 nm2 : TypeNameMap) : Prop :=
  ∃ ext, nm2.nameMap = nm1.nameMap ++ ext

theorem MapExt.rfl (nm : TypeNameMap) : MapExt nm nm := ⟨[], by simp⟩

theorem MapExt.trans {nm1 nm2 nm3 : TypeNameMap} (h1 : MapExt nm1 nm2)
    (h2 : MapExt nm2 nm3) : MapExt nm1 nm3 := by
  obtain ⟨e1, he1⟩ := h1
  obtain ⟨e2, he2⟩ := h2
  exact ⟨e1 ++ e2, by rw [he2, he1, List.append_assoc]⟩

theorem tagLookup_append_some (l e : List (Handle × String)) (h : Handle)
    (s : String) (hl : tagLookup l h = some s) :
    tagLookup (l ++ e) h = some s := by
  induction l with
  | nil => simp [tagLookup] at hl
  | cons x rest ih =>
    obtain ⟨h1, s1⟩ := x
    simp only [List.cons_append, tagLookup] at hl ⊢
    by_cases hh : h1 = h
    · rw [if_pos hh] at hl ⊢; exact hl
    · rw [if_neg hh] at hl ⊢; exact ih hl

theorem tagLookup_append_new (l : List (Handle × String)) (h : Handle)
    (s : String) (hl : tagLookup l h = none) :
    tagLookup (l ++ [(h, s)]) h = some s := by
  induction l with
  | nil => simp [tagLookup]
  | cons x rest ih =>
    obtain ⟨h1, s1⟩ := x
    simp only [List.cons_append, tagLookup] at hl ⊢
    by_cases hh : h1 = h
    · rw [if_pos hh] at hl; cases hl
    · rw [if_neg hh] at hl ⊢; exact ih hl

theorem tag_spec (nm : TypeNameMap) (h : Handle) (b : Bool) (s : String)
    (nm1 : TypeNameMap) (htag : nm.tag h = (b, s, nm1)) :
    (b = false → nm1 = nm ∧ tagLookup nm.nameMap h = some s) ∧
    (b = true → s = "tag" ++ toString nm.counter ∧
      nm1 = ⟨nm.nameMap ++ [(h, s)], nm.counter + 1, nm.typedefs⟩ ∧
      tagLookup nm.nameMap h = none) := by
  unfold TypeNameMap.tag at htag
  cases hl : tagLookup nm.nameMap h with
  | some s0 =>
    rw [hl] at htag
    injection htag with hb rest
    injection rest with hs hn
    constructor
    · intro _
      exact ⟨hn.symm, by rw [hs]⟩
    · intro hcontra
      rw [← hb] at hcontra
      cases hcontra
  | none =>
    rw [hl] at htag
    injection htag with hb rest
    injection rest with hs hn
    constructor
    · intro hcontra
      rw [← hb] at hcontra
      cases hcontra
    · intro _
      refine ⟨hs.symm, ?_, rfl⟩
      rw [← hn, ← hs]
  
theorem runCABI_mapExt (w : World) :
    ∀ fuel nm job, MapExt nm (runCABI w fuel nm job).2 := by
  intro fuel
  induction fuel with
  | zero => intro nm job; exact MapExt.rfl nm
  | succ fuel ih =>
    intro nm job
    cases job with
    | one t v =>
      cases t with
      | none => exact MapExt.rfl nm
      | some h =>
        cases hl : lookupHandle w h with
        | none => simp only [runCABI, hl]; exact MapExt.rfl nm
        | some node =>
          cases node with
          | bool_ name => simp only [runCABI, hl]; exact MapExt.rfl nm
          | integral name a b c => simp only [runCABI, hl]; exact MapExt.rfl nm
          | float_ name b => simp only [runCABI, hl]; exact MapExt.rfl nm
          | clikeEnum name u vals =>
            simp only [runCABI, hl]; exact ih nm (.one u v)
          | typedef name u =>
            simp only [runCABI, hl]; exact ih nm (.one u v)
          | array name len e =>
            simp only [runCABI, hl]; exact ih nm (.one e v)
          | pointer name ptee b =>
            cases hr : resolve w ptee with
            | none => simp only [runCABI, hl, hr]; exact ih nm (.one ptee "")
            | some pn =>
              cases pn with
              | function a1 a2 a3 a4 a5 =>
                simp only [runCABI, hl, hr]; exact ih nm (.one ptee v)
              | bool_ a1 =>
                simp only [runCABI, hl, hr]; exact ih nm (.one ptee "")
              | integral a1 a2 a3 a4 =>
                simp only [runCABI, hl, hr]; exact ih nm (.one ptee "")
              | float_ a1 a2 =>
                simp only [runCABI, hl, hr]; exact ih nm (.one ptee "")
              | clikeEnum a1 a2 a3 =>
                simp only [runCABI, hl, hr]; exact ih nm (.one ptee "")
              | pointer a1 a2 a3 =>
                simp only [runCABI, hl, hr]; exact ih nm (.one ptee "")
              | array a1 a2 a3 =>
                simp only [runCABI, hl, hr]; exact ih nm (.one ptee "")
              | typedef a1 a2 =>
                simp only [runCABI, hl, hr]; exact ih nm (.one ptee "")
              | aggregate a1 a2 a3 a4 a5 a6 =>
                simp only [runCABI, hl, hr]; exact ih nm (.one ptee "")
          | function name b ret args targs =>
            simp only [runCABI, hl]
            exact (ih nm (.one ret "")).trans
              (ih (runCABI w fuel nm (.one ret "")).2 (.argList true args))
          | aggregate k name bsz fields hd targs =>
            rcases htag : nm.tag h with ⟨b, tagname, nm1⟩
            obtain ⟨hfalse, htrue⟩ := tag_spec nm h b tagname nm1 htag
            cases b with
            | false =>
              obtain ⟨hnm1, -⟩ := hfalse (Eq.refl _)
              simp only [runCABI, hl, htag, hnm1]
              exact MapExt.rfl nm
            | true =>
              obtain ⟨-, hnm1, -⟩ := htrue (Eq.refl _)
              simp only [runCABI, hl, htag]
              have hstep : MapExt nm nm1 := ⟨[(h, tagname)], by rw [hnm1]⟩
              have hfields := ih nm1 (.fieldList 0 fields)
              exact (hstep.trans hfields)
    | fieldList argno fs =>
      cases fs with
      | nil => exact MapExt.rfl nm
      | cons f rest =>
        simp only [runCABI]
        exact MapExt.trans (ih _ _) (ih _ _)
    | argList first ts =>
      cases ts with
      | nil => exact MapExt.rfl nm
      | cons t rest =>
        simp only [runCABI]
        exact MapExt.trans (ih _ _) (ih _ _)

/-- Tag assignments are stable across the rest of a synthesis call. -/
theorem runCABI_tagLookup_mono (w : World) (fuel : Nat) (nm : TypeNameMap)
    (job : CABIJob) (h : Handle) (s : String)
    (hl : tagLookup nm.nameMap h = some s) :
    tagLookup (runCABI w fuel nm job).2.nameMap h = some s := by
  obtain ⟨ext, hext⟩ := runCABI_mapExt w fuel nm job
  rw [hext]
  exact tagLookup_append_some _ _ _ _ hl

/-! ### Claim theorems -/

/-- C1: for a tagged Enum, `FindEnumVariant(type, d)` returns the payload
type of the field whose recorded discriminant value equals `d`; when no
recorded discriminant equals `d` it returns the payload of the recorded
default variant; and when `d` is unrecorded and no default variant was
recorded (`m_default = -1`) it returns the empty/invalid type. -/
theorem findEnumVariant_resolution (w : World) (h : Handle) (off dsz : Nat)
    (mdefault : Int) (discs : List (Nat × Int)) (name : String) (bsz : Nat)
    (fields : List Field) (hd : Bool) (targs : List CompilerType) (d : Nat)
    (hM : sysIsMotoko w h = true)
    (hN : lookupHandle w h =
      some (.aggregate (.enum_ off dsz mdefault discs) name bsz fields hd targs)) :
    (∀ i, assocGet discs d = some i →
      findEnumVariant w (some h) d = fieldTypeAt fields i) ∧
    (assocGet discs d = none → mdefault ≠ -1 →
      findEnumVariant w (some h) d = fieldTypeAt fields mdefault) ∧
    (assocGet discs d = none → mdefault = -1 →
      findEnumVariant w (some h) d = none) := by
  refine ⟨?_, ?_, ?_⟩
  · intro i hi
    simp [findEnumVariant, hM, hN, enumFindVariant, hi]
  · intro hnone hdef
    simp [findEnumVariant, hM, hN, enumFindVariant, hnone, hdef]
  · intro hnone hdef
    simp [findEnumVariant, hM, hN, enumFindVariant, hnone, hdef]

/-- C1 witness: on the enum built through `AddFieldToStruct`
(discriminants 0 and 1 recorded, plus a default variant), resolution
returns `V0`, `V1`, and the default for an unknown value; the enum built
without a default fails on an unknown value. -/
theorem findEnumVariant_resolution_witness :
    findEnumVariant exEnumBuilt (some ⟨0, 4⟩) 0 = some ⟨0, 1⟩ ∧
    findEnumVariant exEnumBuilt (some ⟨0, 4⟩) 1 = some ⟨0, 2⟩ ∧
    findEnumVariant exEnumBuilt (some ⟨0, 4⟩) 999 = some ⟨0, 3⟩ ∧
    findEnumVariant exEnumBuilt (some ⟨0, 5⟩) 999 = none := by
  have h4 := findEnumVariant_resolution exEnumBuilt ⟨0, 4⟩ 0 1 2
    [(0, 0), (1, 1)] "E" 8
    [⟨"V0", some ⟨0, 1⟩, 0⟩, ⟨"V1", some ⟨0, 2⟩, 0⟩, ⟨"Vd", some ⟨0, 3⟩, 0⟩]
    false []
  have h5 := findEnumVariant_resolution exEnumBuilt ⟨0, 5⟩ 0 1 (-1)
    [(0, 0), (1, 1)] "F" 8
    [⟨"V0", some ⟨0, 1⟩, 0⟩, ⟨"V1", some ⟨0, 2⟩, 0⟩] false []
  refine ⟨?_, ?_, ?_, ?_⟩
  · rw [(h4 0 rfl rfl).1 0 rfl]; decide
  · rw [(h4 1 rfl rfl).1 1 rfl]; decide
  · rw [(h4 999 rfl rfl).2.1 rfl (by decide)]; decide
  · exact (h5 999 rfl rfl).2.2 rfl rfl

/-- C2: dynamic variant resolution returns "no dynamic type" (`none`,
i.e. `false` with no resolved type) when the value's load address is
unavailable, and likewise when the discriminant memory read fails; the
model is a total function, so no path terminates the process. -/
theorem dynamicResolution_failure_safe (w : World) (v : ValueModel) :
    (v.loadAddr = none → getDynamicTypeAndAddress w v = none) ∧
    (∀ a off dsz, v.loadAddr = some a →
      getEnumDiscriminantLocation w v.ctype = some (off, dsz) →
      v.readMem (a + off) dsz = none →
      getDynamicTypeAndAddress w v = none) := by
  constructor
  · intro hla
    cases hct : v.ctype with
    | none => simp [getDynamicTypeAndAddress, hct]
    | some h =>
      by_cases hm : sysIsMotoko w h
      · cases hloc : getEnumDiscriminantLocation w (some h) with
        | none => simp [getDynamicTypeAndAddress, hct, hm, hloc]
        | some pr =>
          obtain ⟨off, dsz⟩ := pr
          simp [getDynamicTypeAndAddress, hct, hm, hloc, hla]
      · simp [getDynamicTypeAndAddress, hct, hm]
  · intro a off dsz hla hloc hread
    cases hct : v.ctype with
    | none => simp [getDynamicTypeAndAddress, hct]
    | some h =>
      rw [hct] at hloc
      by_cases hm : sysIsMotoko w h
      · cases hp : v.hasProcess
        · simp [getDynamicTypeAndAddress, hct, hm, hloc, hla, hp]
        · simp [getDynamicTypeAndAddress, hct, hm, hloc, hla, hp, hread]
      · simp [getDynamicTypeAndAddress, hct, hm]

/-- C2 witness: on the concrete enum world, an unavailable load address
and a failing memory read both produce "no dynamic type", while the
happy path resolves (showing the failure cases are not vacuous). -/
theorem dynamicResolution_failure_safe_witness :
    getDynamicTypeAndAddress exEnumBuilt
      ⟨some ⟨0, 4⟩, none, true, fun _ _ => some 1⟩ = none ∧
    getDynamicTypeAndAddress exEnumBuilt
      ⟨some ⟨0, 4⟩, some 1000, true, fun _ _ => none⟩ = none ∧
    getDynamicTypeAndAddress exEnumBuilt
      ⟨some ⟨0, 4⟩, some 1000, true, fun _ _ => some 1⟩ =
        some (some ⟨0, 2⟩, 1000) := by
  refine ⟨?_, ?_, by decide⟩
  · exact (dynamicResolution_failure_safe exEnumBuilt _).1 rfl
  · exact (dynamicResolution_failure_safe exEnumBuilt _).2 1000 0 1 rfl rfl rfl

/-- C3: `GetNumChildren` by variant: a Pointer takes the pointee's child
count but reports 1 when that count is 0; an Array reports its length; a
Typedef delegates to the aliased type; an Aggregate reports its field
count. -/
theorem getNumChildren_by_variant (w : World) (fuel : Nat) :
    (∀ t name pointee bsz, resolve w t = some (.pointer name pointee bsz) →
      getNumChildren w (fuel + 1) t =
        if getNumChildren w fuel pointee = 0 then 1
        else getNumChildren w fuel pointee) ∧
    (∀ t name len elem, resolve w t = some (.array name len elem) →
      getNumChildren w (fuel + 1) t = len) ∧
    (∀ t name u, resolve w t = some (.typedef name u) →
      getNumChildren w (fuel + 1) t = getNumChildren w fuel u) ∧
    (∀ t k name bsz fields hd targs,
      resolve w t = some (.aggregate k name bsz fields hd targs) →
      getNumChildren w (fuel + 1) t = fields.length) := by
  refine ⟨?_, ?_, ?_, ?_⟩
  · intro t name pointee bsz ht
    simp [getNumChildren, ht]
  · intro t name len elem ht
    simp [getNumChildren, ht]
  · intro t name u ht
    simp [getNumChildren, ht]
  · intro t k name bsz fields hd targs ht
    simp [getNumChildren, ht]

/-- C3 witness: a pointer to a primitive has 1 child, a pointer to a
two-field struct has 2, a 7-element array has 7, and a typedef of the
struct has 2. -/
theorem getNumChildren_by_variant_witness :
    getNumChildren exQueryW (1 + 1) (some ⟨0, 2⟩) = 1 ∧
    getNumChildren exQueryW (1 + 1) (some ⟨0, 3⟩) = 2 ∧
    getNumChildren exQueryW (0 + 1) (some ⟨0, 4⟩) = 7 ∧
    getNumChildren exQueryW (1 + 1) (some ⟨0, 5⟩) = 2 := by
  refine ⟨?_, ?_, ?_, ?_⟩
  · rw [(getNumChildren_by_variant exQueryW 1).1 (some ⟨0, 2⟩) "ptrI32"
      (some ⟨0, 0⟩) 8 rfl]
    decide
  · rw [(getNumChildren_by_variant exQueryW 1).1 (some ⟨0, 3⟩) "ptrS"
      (some ⟨0, 1⟩) 8 rfl]
    decide
  · exact (getNumChildren_by_variant exQueryW 0).2.1 (some ⟨0, 4⟩) "arrI32" 7
      (some ⟨0, 0⟩) rfl
  · rw [(getNumChildren_by_variant exQueryW 1).2.2.1 (some ⟨0, 5⟩) "aliasS"
      (some ⟨0, 1⟩) rfl]
    decide

/-- C6 counterexample: an unnamed zero-field Tuple is NOT void in the
code — `IsVoidType` requires the name to be nonempty and equal to
`"()"` — whereas the claim (following §4.2's wording) says an unnamed
zero-field Tuple is also void. -/
theorem isVoidType_unnamed_tuple_counterexample :
    motokoIsVoidType exQueryW (some ⟨0, 8⟩) = false := by decide

/-- C6 (amended): `IsVoidType` holds exactly on a Tuple-variant node with
zero fields whose name is exactly `"()"`; an unnamed zero-field Tuple is
not void, a one-field `"()"` Tuple is not void, and a Struct node is
never void regardless of name. -/
theorem isVoidType_characterization (w : World) (t : CompilerType) :
    motokoIsVoidType w t = true ↔
      ∃ h bsz hd targs, t = some h ∧
        lookupHandle w h = some (.aggregate .tuple "()" bsz [] hd targs) := by
  cases t with
  | none => simp [motokoIsVoidType, resolve]
  | some h =>
    cases hl : lookupHandle w h with
    | none => simp [motokoIsVoidType, resolve, hl]
    | some n =>
      cases n with
      | aggregate k name bsz fields hd targs =>
        cases k with
        | tuple =>
          simp only [motokoIsVoidType, resolve, Option.some_bind, hl]
          constructor
          · intro hv
            simp only [Bool.and_eq_true, Bool.not_eq_true', beq_iff_eq,
              Nat.beq_eq_true_eq] at hv
            obtain ⟨⟨h1, h2⟩, h3⟩ := hv
            refine ⟨h, bsz, hd, targs, rfl, ?_⟩
            rw [hl, h2, List.length_eq_zero.mp h3]
          · rintro ⟨h', bsz', hd', targs', heq, hlook⟩
            injection heq with heq'
            subst heq'
            rw [hl] at hlook
            injection hlook with hn
            injection hn with hk hrest
            simp_all
            decide
        | struct_ =>
          simp only [motokoIsVoidType, resolve, Option.some_bind, hl]
          constructor
          · intro hv; cases hv
          · rintro ⟨h', bsz', hd', targs', heq, hlook⟩
            injection heq with heq'
            subst heq'
            rw [hl] at hlook
            injection hlook with hn
            injection hn with hk hrest
            cases hk
        | union_ =>
          simp only [motokoIsVoidType, resolve, Option.some_bind, hl]
          constructor
          · intro hv; cases hv
          · rintro ⟨h', bsz', hd', targs', heq, hlook⟩
            injection heq with heq'
            subst heq'
            rw [hl] at hlook
            injection hlook with hn
            injection hn with hk hrest
            cases hk
        | enum_ o s dflt m =>
          simp only [motokoIsVoidType, resolve, Option.some_bind, hl]
          constructor
          · intro hv; cases hv
          · rintro ⟨h', bsz', hd', targs', heq, hlook⟩
            injection heq with heq'
            subst heq'
            rw [hl] at hlook
            injection hlook with hn
            injection hn with hk hrest
            cases hk
      | bool_ name => simp [motokoIsVoidType, resolve, hl]
      | integral name a b c => simp [motokoIsVoidType, resolve, hl]
      | float_ name b => simp [motokoIsVoidType, resolve, hl]
      | clikeEnum name u vals => simp [motokoIsVoidType, resolve, hl]
      | pointer name p b => simp [motokoIsVoidType, resolve, hl]
      | array name l e => simp [motokoIsVoidType, resolve, hl]
      | typedef name u => simp [motokoIsVoidType, resolve, hl]
      | function name b r a tg => simp [motokoIsVoidType, resolve, hl]

/-- C10: for a Pointer whose pointee is the void type (`"()"`-named
zero-field Tuple), `GetNumChildren` reports 1 via the zero-children
fallback, yet `GetChildCompilerTypeAtIndex` returns the empty/invalid
result at every index — the advertised dereference-child can never be
retrieved. -/
theorem pointerToVoid_child_unreachable (w : World) (fuel : Nat)
    (h hv : Handle) (pname : String) (bsz psz : Nat) (hd : Bool)
    (targs : List CompilerType)
    (hP : lookupHandle w h = some (.pointer pname (some hv) bsz))
    (hV : lookupHandle w hv = some (.aggregate .tuple "()" psz [] hd targs)) :
    getNumChildren w (fuel + 1 + 1) (some h) = 1 ∧
    ∀ idx tp ib pn,
      getChildAtIndex w (fuel + 1) (some h) idx tp ib pn = ChildInfo.empty := by
  constructor
  · simp [getNumChildren, resolve, hP, hV]
  · intro idx tp ib pn
    have hvoid : motokoIsVoidType w (some hv) = true := by
      simp [motokoIsVoidType, resolve, hV]
      decide
    simp [getChildAtIndex, resolve, hP, hvoid]

/-- C10 witness: in the concrete world, the pointer to the unit tuple
advertises one child but yields the invalid type at indices 0 and 1,
with or without transparent pointer traversal. -/
theorem pointerToVoid_child_unreachable_witness :
    getNumChildren exQueryW (8 + 1 + 1) (some ⟨0, 7⟩) = 1 ∧
    getChildAtIndex exQueryW (8 + 1) (some ⟨0, 7⟩) 0 true false
      (some "v") = ChildInfo.empty ∧
    getChildAtIndex exQueryW (8 + 1) (some ⟨0, 7⟩) 0 false false
      none = ChildInfo.empty ∧
    getChildAtIndex exQueryW (8 + 1) (some ⟨0, 7⟩) 1 false true
      (some "v") = ChildInfo.empty := by
  have hmain := pointerToVoid_child_unreachable exQueryW 8 ⟨0, 7⟩ ⟨0, 6⟩
    "ptrUnit" 8 0 false [] rfl rfl
  exact ⟨hmain.1, hmain.2 0 true false (some "v"), hmain.2 0 false false none,
    hmain.2 1 false true (some "v")⟩

/-- C4: `FinishAggregateInitialization` on an Enum whose payload nodes
are aggregates built with the has-discriminant flag and a leading
discriminant field removes exactly that one field from each payload
(count drops by exactly 1, flag cleared), and tuple payloads are renamed
to the contiguous decimal names `"0", "1", …` in order. -/
theorem finishInitialization_drops_payload_discriminants (w : World)
    (h : Handle) (off dsz : Nat) (mdefault : Int) (discs : List (Nat × Int))
    (ename : String) (ebsz : Nat) (fields : List Field) (ehd : Bool)
    (etargs : List CompilerType) (hM : sysIsMotoko w h = true)
    (hN : lookupHandle w h = some
      (.aggregate (.enum_ off dsz mdefault discs) ename ebsz fields ehd etargs))
    (f : Field) (hf : f ∈ fields)
    (p : Handle) (hp : f.ftype = some p) (k : AggKind) (pname : String)
    (pbsz : Nat) (pfs : List Field) (ptargs : List CompilerType)
    (hPN : lookupHandle w p = some (.aggregate k pname pbsz pfs true ptargs))
    (hne : pfs ≠ []) :
    ∃ pfs',
      lookupHandle (finishAggregateInitialization w (some h)) p =
        some (.aggregate k pname pbsz pfs' false ptargs) ∧
      pfs'.length + 1 = pfs.length ∧
      (k = .tuple → pfs'.map Field.fname =
        (List.range pfs'.length).map toString) := by
  have hfin : finishAggregateInitialization w (some h) =
      dropFieldDiscriminants w fields := by
    simp [finishAggregateInitialization, hM, hN]
  have hdrop := dropFieldDiscriminants_lookup_mem fields w p f hf hp _ hPN
  rw [hfin]
  have hlen : pfs.tail.length + 1 = pfs.length := by
    cases pfs with
    | nil => cases hne rfl
    | cons a rest => simp
  cases k with
  | tuple =>
    refine ⟨renameFields 0 pfs.tail, ?_, ?_, ?_⟩
    · rw [hdrop]
      simp [guardDrop, MotokoNode.isAggregateBase, dropDiscriminantNode]
    · rw [renameFields_length]
      exact hlen
    · intro _
      rw [renameFields_map_fname, renameFields_length,
        List.range_eq_range' pfs.tail.length]
  | struct_ =>
    refine ⟨pfs.tail, ?_, hlen, fun hcontra => by cases hcontra⟩
    rw [hdrop]
    simp [guardDrop, MotokoNode.isAggregateBase, dropDiscriminantNode]
  | union_ =>
    refine ⟨pfs.tail, ?_, hlen, fun hcontra => by cases hcontra⟩
    rw [hdrop]
    simp [guardDrop, MotokoNode.isAggregateBase, dropDiscriminantNode]
  | enum_ o s dflt m =>
    refine ⟨pfs.tail, ?_, hlen, fun hcontra => by cases hcontra⟩
    rw [hdrop]
    simp [guardDrop, MotokoNode.isAggregateBase, dropDiscriminantNode]

/-- C4 witness: finalizing the concrete enum drops the leading
discriminant field of the struct payload `V0` (2 fields → 1) and of the
tuple payload `V1`, whose remaining field is renamed `"0"`. -/
theorem finishInitialization_drops_witness :
    (∃ pfs',
      lookupHandle (finishAggregateInitialization exEnumBuilt (some ⟨0, 4⟩))
          ⟨0, 1⟩ = some (.aggregate .struct_ "V0" 8 pfs' false []) ∧
      pfs'.length + 1 = 2 ∧
      (AggKind.struct_ = .tuple → pfs'.map Field.fname =
        (List.range pfs'.length).map toString)) ∧
    (∃ pfs',
      lookupHandle (finishAggregateInitialization exEnumBuilt (some ⟨0, 4⟩))
          ⟨0, 2⟩ = some (.aggregate .tuple "V1" 8 pfs' false []) ∧
      pfs'.length + 1 = 2 ∧
      (AggKind.tuple = .tuple → pfs'.map Field.fname =
        (List.range pfs'.length).map toString)) := by
  constructor
  · exact finishInitialization_drops_payload_discriminants exEnumBuilt
      ⟨0, 4⟩ 0 1 2 [(0, 0), (1, 1)] "E" 8
      [⟨"V0", some ⟨0, 1⟩, 0⟩, ⟨"V1", some ⟨0, 2⟩, 0⟩, ⟨"Vd", some ⟨0, 3⟩, 0⟩]
      false [] rfl rfl ⟨"V0", some ⟨0, 1⟩, 0⟩ (by decide) ⟨0, 1⟩
      rfl .struct_ "V0" 8 [⟨"d", some ⟨0, 0⟩, 0⟩, ⟨"a", some ⟨0, 0⟩, 4⟩] []
      rfl (by decide)
  · exact finishInitialization_drops_payload_discriminants exEnumBuilt
      ⟨0, 4⟩ 0 1 2 [(0, 0), (1, 1)] "E" 8
      [⟨"V0", some ⟨0, 1⟩, 0⟩, ⟨"V1", some ⟨0, 2⟩, 0⟩, ⟨"Vd", some ⟨0, 3⟩, 0⟩]
      false [] rfl rfl ⟨"V1", some ⟨0, 2⟩, 0⟩ (by decide) ⟨0, 2⟩
      rfl .tuple "V1" 8 [⟨"", some ⟨0, 0⟩, 0⟩, ⟨"", some ⟨0, 0⟩, 4⟩] []
      rfl (by decide)

/-- C9: `FinishAggregateInitialization` is idempotent: a second call on
the same handle leaves the world (field lists, field names, discriminant
bookkeeping) exactly as it was after the first call, for every node —
the drop of a payload discriminant is a no-op once the has-discriminant
flag is cleared, and the tuple renaming is stable. -/
theorem finishAggregateInitialization_idem (w : World) (t : CompilerType) :
    finishAggregateInitialization (finishAggregateInitialization w t) t =
      finishAggregateInitialization w t := by
  cases t with
  | none => rfl
  | some h =>
    by_cases hm : sysIsMotoko w h
    · cases hl : lookupHandle w h with
      | none => simp [finishAggregateInitialization, hm, hl]
      | some nd =>
        match nd, hl with
        | .aggregate (.enum_ off dsz mdefault discs) ename ebsz fields ehd etargs, hl =>
          have hfin : finishAggregateInitialization w (some h) =
              dropFieldDiscriminants w fields := by
            simp [finishAggregateInitialization, hm, hl]
          rw [hfin]
          have hm' : sysIsMotoko (dropFieldDiscriminants w fields) h = true := by
            rw [sysIsMotoko_dropFieldDiscriminants]
            exact hm
          have hfixed : ∀ fields2 : List Field, (∀ f ∈ fields2, f ∈ fields) →
              dropFieldDiscriminants (dropFieldDiscriminants w fields) fields2 =
                dropFieldDiscriminants w fields := by
            intro fields2 hsub
            exact dropFieldDiscriminants_of_fixed fields2 _
              (fun f hf q hq =>
                dropFieldDiscriminants_fixes fields w f (hsub f hf) q hq)
          rcases dropFieldDiscriminants_lookup_cases fields w h _ hl
            with hl' | hl'
          · have hfin' : finishAggregateInitialization
                (dropFieldDiscriminants w fields) (some h) =
                dropFieldDiscriminants (dropFieldDiscriminants w fields)
                  fields := by
              simp [finishAggregateInitialization, hm', hl']
            rw [hfin']
            exact hfixed fields (fun f hf => hf)
          · have hgd : guardDrop
                (.aggregate (.enum_ off dsz mdefault discs) ename ebsz fields
                  ehd etargs) =
                .aggregate (.enum_ off dsz mdefault discs) ename ebsz
                  (if ehd then fields.tail else fields) false etargs := by
              simp [guardDrop, MotokoNode.isAggregateBase, dropDiscriminantNode]
            rw [hgd] at hl'
            have hfin' : finishAggregateInitialization
                (dropFieldDiscriminants w fields) (some h) =
                dropFieldDiscriminants (dropFieldDiscriminants w fields)
                  (if ehd then fields.tail else fields) := by
              simp [finishAggregateInitialization, hm', hl']
            rw [hfin']
            refine hfixed _ ?_
            intro f hf
            cases ehd with
            | false => simpa using hf
            | true => exact List.mem_of_mem_tail (by simpa using hf)
        | .aggregate .tuple ename ebsz fields ehd etargs, hl =>
          simp [finishAggregateInitialization, hm, hl]
        | .aggregate .struct_ ename ebsz fields ehd etargs, hl =>
          simp [finishAggregateInitialization, hm, hl]
        | .aggregate .union_ ename ebsz fields ehd etargs, hl =>
          simp [finishAggregateInitialization, hm, hl]
        | .bool_ name, hl => simp [finishAggregateInitialization, hm, hl]
        | .integral name a b c, hl => simp [finishAggregateInitialization, hm, hl]
        | .float_ name b, hl => simp [finishAggregateInitialization, hm, hl]
        | .clikeEnum name u vals, hl => simp [finishAggregateInitialization, hm, hl]
        | .pointer name p b, hl => simp [finishAggregateInitialization, hm, hl]
        | .array name l e, hl => simp [finishAggregateInitialization, hm, hl]
        | .typedef name u, hl => simp [finishAggregateInitialization, hm, hl]
        | .function name b r a tg, hl => simp [finishAggregateInitialization, hm, hl]
    · simp [finishAggregateInitialization, hm]

/-- C9 witness: double finalization of the concrete enum equals single
finalization. -/
theorem finishAggregateInitialization_idem_witness :
    finishAggregateInitialization
        (finishAggregateInitialization exEnumBuilt (some ⟨0, 4⟩))
        (some ⟨0, 4⟩) =
      finishAggregateInitialization exEnumBuilt (some ⟨0, 4⟩) :=
  finishAggregateInitialization_idem exEnumBuilt (some ⟨0, 4⟩)

/-- C5: within one synthesis call every aggregate node is defined at most
once: (i) an already-tagged aggregate encounter returns `tag ++ varname`
and leaves the map, counter and definitions buffer untouched; (ii) a
first encounter assigns the fresh tag `"tag" ++ counter`, records it in
the map, and appends exactly one definition (after any nested ones);
(iii) a tag assignment survives the rest of the call; (iv) a Function
taking the same Struct twice and returning it emits exactly one
`struct tag0` definition referenced three times. -/
theorem cabi_definitions_deduplicated :
    (∀ w fuel nm (h : Handle) tag v k name bsz fields hd targs,
      lookupHandle w h = some (.aggregate k name bsz fields hd targs) →
      tagLookup nm.nameMap h = some tag →
      runCABI w (fuel + 1) nm (.one (some h) v) = (tag ++ " " ++ v, nm)) ∧
    (∀ w fuel nm (h : Handle) v k name bsz fields hd targs,
      lookupHandle w h = some (.aggregate k name bsz fields hd targs) →
      tagLookup nm.nameMap h = none →
      ∃ nmMid defn,
        runCABI w (fuel + 1) nm (.one (some h) v) =
          ("tag" ++ toString nm.counter ++ " " ++ v,
            ⟨nmMid.nameMap, nmMid.counter, nmMid.typedefs ++ defn⟩) ∧
        tagLookup nmMid.nameMap h = some ("tag" ++ toString nm.counter) ∧
        MapExt nm nmMid) ∧
    (∀ w fuel nm job (h : Handle) s,
      tagLookup nm.nameMap h = some s →
      tagLookup (runCABI w fuel nm job).2.nameMap h = some s) ∧
    ((runCABI exCABIW 20 ⟨[], 0, ""⟩ (.one (some ⟨0, 2⟩) "fn")).1 =
        "tag0  (*fn)(tag0 , tag0 )" ∧
      countOccs (runCABI exCABIW 20 ⟨[], 0, ""⟩
        (.one (some ⟨0, 2⟩) "fn")).2.typedefs "struct tag0\x7b" = 1 ∧
      countOccs (runCABI exCABIW 20 ⟨[], 0, ""⟩
        (.one (some ⟨0, 2⟩) "fn")).1 "tag0" = 3) := by
  refine ⟨?_, ?_, ?_, by decide, by decide, by decide⟩
  · intro w fuel nm h tag v k name bsz fields hd targs hN hFound
    have htag : nm.tag h = (false, tag, nm) := by
      unfold TypeNameMap.tag
      rw [hFound]
    simp [runCABI, hN, htag]
  · intro w fuel nm h v k name bsz fields hd targs hN hFresh
    have htag : nm.tag h = (true, "tag" ++ toString nm.counter,
        ⟨nm.nameMap ++ [(h, "tag" ++ toString nm.counter)], nm.counter + 1,
          nm.typedefs⟩) := by
      unfold TypeNameMap.tag
      rw [hFresh]
    have hnew : tagLookup (nm.nameMap ++ [(h, "tag" ++ toString nm.counter)]) h =
        some ("tag" ++ toString nm.counter) :=
      tagLookup_append_new _ _ _ hFresh
    refine ⟨(runCABI w fuel
        ⟨nm.nameMap ++ [(h, "tag" ++ toString nm.counter)], nm.counter + 1,
          nm.typedefs⟩ (.fieldList 0 fields)).2, ?_⟩
    have hmono := runCABI_tagLookup_mono w fuel
      ⟨nm.nameMap ++ [(h, "tag" ++ toString nm.counter)], nm.counter + 1,
        nm.typedefs⟩ (.fieldList 0 fields) h ("tag" ++ toString nm.counter) hnew
    have hext : MapExt nm (runCABI w fuel
        ⟨nm.nameMap ++ [(h, "tag" ++ toString nm.counter)], nm.counter + 1,
          nm.typedefs⟩ (.fieldList 0 fields)).2 := by
      have hstep : MapExt nm
          (⟨nm.nameMap ++ [(h, "tag" ++ toString nm.counter)], nm.counter + 1,
            nm.typedefs⟩ : TypeNameMap) :=
        ⟨[(h, "tag" ++ toString nm.counter)], rfl⟩
      exact hstep.trans (runCABI_mapExt w fuel _ _)
    cases k with
    | tuple =>
      refine ⟨"  struct " ++ ("tag" ++ toString nm.counter) ++ "\x7b" ++
          (runCABI w fuel ⟨nm.nameMap ++ [(h, "tag" ++ toString nm.counter)],
            nm.counter + 1, nm.typedefs⟩ (.fieldList 0 fields)).1 ++
          " \x7d;\n", ?_, hmono, hext⟩
      simp [runCABI, hN, htag]
    | struct_ =>
      refine ⟨"  struct " ++ ("tag" ++ toString nm.counter) ++ "\x7b" ++
          (runCABI w fuel ⟨nm.nameMap ++ [(h, "tag" ++ toString nm.counter)],
            nm.counter + 1, nm.typedefs⟩ (.fieldList 0 fields)).1 ++
          " \x7d;\n", ?_, hmono, hext⟩
      simp [runCABI, hN, htag]
    | union_ =>
      refine ⟨"  union " ++ ("tag" ++ toString nm.counter) ++ "\x7b" ++
          (runCABI w fuel ⟨nm.nameMap ++ [(h, "tag" ++ toString nm.counter)],
            nm.counter + 1, nm.typedefs⟩ (.fieldList 0 fields)).1 ++
          " \x7d;\n", ?_, hmono, hext⟩
      simp [runCABI, hN, htag]
    | enum_ o s dflt m =>
      refine ⟨"struct " ++ ("tag" ++ toString nm.counter) ++ "\x7b " ++
          (if fields.length > 1 && o = 0 then
            "int" ++ toString (8 * s) ++ "_t __discr; "
          else "") ++
          (runCABI w fuel ⟨nm.nameMap ++ [(h, "tag" ++ toString nm.counter)],
            nm.counter + 1, nm.typedefs⟩ (.fieldList 0 fields)).1 ++
          " \x7d;\n", ?_, hmono, hext⟩
      simp [runCABI, hN, htag]
  · intro w fuel nm job h s hl
    exact runCABI_tagLookup_mono w fuel nm job h s hl

/-- C5 witness: an already-tagged struct is reused verbatim with the
synthesis state untouched, and its assignment survives an unrelated
rendering. -/
theorem cabi_definitions_deduplicated_witness :
    runCABI exCABIW (9 + 1) ⟨[(⟨0, 1⟩, "tagX")], 5, "buf"⟩
        (.one (some ⟨0, 1⟩) "s") =
      ("tagX s", ⟨[(⟨0, 1⟩, "tagX")], 5, "buf"⟩) ∧
    tagLookup (runCABI exCABIW 10 ⟨[(⟨0, 1⟩, "tagX")], 5, "buf"⟩
        (.one (some ⟨0, 0⟩) "x")).2.nameMap ⟨0, 1⟩ = some "tagX" := by
  constructor
  · exact cabi_definitions_deduplicated.1 exCABIW 9 _ ⟨0, 1⟩ "tagX" "s"
      .struct_ "S" 4 [⟨"x", some ⟨0, 0⟩, 0⟩] false [] rfl rfl
  · exact cabi_definitions_deduplicated.2.2.1 exCABIW 10 _
      (.one (some ⟨0, 0⟩) "x") ⟨0, 1⟩ "tagX" rfl

/-- C7: the C-ABI declaration of a tagged Enum is a plain struct whose
definition contains a synthesized `__discr` integer field of the
discriminant's byte width exactly when the Enum has more than one field
and its discriminant offset is 0; otherwise no discriminant field is
emitted, and the variant payload fields follow in declaration order. -/
theorem enumCABI_discriminant_condition (w : World) (fuel : Nat)
    (nm : TypeNameMap) (h : Handle) (v : String) (off dsz : Nat)
    (mdefault : Int) (discs : List (Nat × Int)) (name : String) (bsz : Nat)
    (fields : List Field) (hd : Bool) (targs : List CompilerType)
    (hN : lookupHandle w h = some
      (.aggregate (.enum_ off dsz mdefault discs) name bsz fields hd targs))
    (hFresh : tagLookup nm.nameMap h = none) :
    ∃ fs : String × TypeNameMap,
      fs = runCABI w fuel
        ⟨nm.nameMap ++ [(h, "tag" ++ toString nm.counter)], nm.counter + 1,
          nm.typedefs⟩ (.fieldList 0 fields) ∧
      runCABI w (fuel + 1) nm (.one (some h) v) =
        ("tag" ++ toString nm.counter ++ " " ++ v,
          ⟨fs.2.nameMap, fs.2.counter,
            fs.2.typedefs ++
              ("struct " ++ ("tag" ++ toString nm.counter) ++ "\x7b " ++
                (if fields.length > 1 && off = 0 then
                  "int" ++ toString (8 * dsz) ++ "_t __discr; "
                else "") ++
                fs.1 ++ " \x7d;\n")⟩) := by
  have htag : nm.tag h = (true, "tag" ++ toString nm.counter,
      ⟨nm.nameMap ++ [(h, "tag" ++ toString nm.counter)], nm.counter + 1,
        nm.typedefs⟩) := by
    unfold TypeNameMap.tag
    rw [hFresh]
  refine ⟨_, rfl, ?_⟩
  simp [runCABI, hN, htag]

/-- C7 witness: among the concrete enums, only the one with two variants
and discriminant offset 0 gets a `__discr` field (`int8_t`, matching the
1-byte discriminant); the offset-4 enum and the single-variant enum get
none. -/
theorem enumCABI_discriminant_condition_witness :
    countOccs (runCABI exCABIW (19 + 1) ⟨[], 0, ""⟩
      (.one (some ⟨0, 3⟩) "e")).2.typedefs "int8_t __discr; " = 1 ∧
    countOccs (runCABI exCABIW (19 + 1) ⟨[], 0, ""⟩
      (.one (some ⟨0, 4⟩) "e")).2.typedefs "__discr" = 0 ∧
    countOccs (runCABI exCABIW (19 + 1) ⟨[], 0, ""⟩
      (.one (some ⟨0, 5⟩) "e")).2.typedefs "__discr" = 0 := by
  obtain ⟨fs3, hfs3, heq3⟩ := enumCABI_discriminant_condition exCABIW 19
    ⟨[], 0, ""⟩ ⟨0, 3⟩ "e" 0 1 (-1) [(0, 0), (1, 1)] "E0" 8
    [⟨"A", some ⟨0, 1⟩, 0⟩, ⟨"B", some ⟨0, 1⟩, 0⟩] false [] rfl rfl
  obtain ⟨fs4, hfs4, heq4⟩ := enumCABI_discriminant_condition exCABIW 19
    ⟨[], 0, ""⟩ ⟨0, 4⟩ "e" 4 1 (-1) [(0, 0), (1, 1)] "E4" 8
    [⟨"A", some ⟨0, 1⟩, 0⟩, ⟨"B", some ⟨0, 1⟩, 0⟩] false [] rfl rfl
  obtain ⟨fs5, hfs5, heq5⟩ := enumCABI_discriminant_condition exCABIW 19
    ⟨[], 0, ""⟩ ⟨0, 5⟩ "e" 0 1 (-1) [(0, 0)] "E1" 8
    [⟨"A", some ⟨0, 1⟩, 0⟩] false [] rfl rfl
  subst hfs3; subst hfs4; subst hfs5
  rw [heq3, heq4, heq5]
  refine ⟨by decide, by decide, by decide⟩

/-- C8 counterexample: `AddFieldToStruct` invoked on Registry instance 1
with a handle owned by Motoko instance 0 is not a no-op and returns no
empty result — the struct owned by the other instance gains the field,
because the code only `dyn_cast`s the owning system's class and never
compares it with `this`. -/
theorem crossInstance_addField_not_noop :
    addFieldToStruct exTwoRegW 1 (some ⟨0, 1⟩) "y" (some ⟨0, 0⟩) 4 false 0 ≠
      exTwoRegW ∧
    lookupHandle
        (addFieldToStruct exTwoRegW 1 (some ⟨0, 1⟩) "y" (some ⟨0, 0⟩) 4
          false 0) ⟨0, 1⟩ =
      some (.aggregate .struct_ "S" 4
        [⟨"x", some ⟨0, 0⟩, 0⟩, ⟨"y", some ⟨0, 0⟩, 4⟩] false []) := by
  constructor
  · decide
  · decide

/-- C8 (amended): every dispatching operation checks only that the
handle's owning type system is of the Motoko Registry class (the
`dyn_cast`); a handle owned by a non-Motoko system — or an invalid
handle — makes the operation a no-op or an empty/invalid/false result,
never fatal.  Instance identity is not compared, so a handle owned by a
different Motoko Registry instance is processed normally. -/
theorem foreign_system_ops_fail_safely (w : World) (thisId : Nat)
    (h : Handle) (hM : sysIsMotoko w h = false) (name : String)
    (ft : CompilerType) (off : Nat) (b : Bool) (d dd : Nat) (fuel : Nat)
    (v : String) (nm : TypeNameMap) :
    addFieldToStruct w thisId (some h) name ft off b d = w ∧
    finishAggregateInitialization w (some h) = w ∧
    findEnumVariant w (some h) dd = none ∧
    getEnumDiscriminantLocation w (some h) = none ∧
    astGetCABITypeDeclaration w fuel (some h) v nm = none ∧
    addFieldToStruct w thisId none name ft off b d = w ∧
    finishAggregateInitialization w none = w ∧
    findEnumVariant w none dd = none ∧
    getEnumDiscriminantLocation w none = none ∧
    astGetCABITypeDeclaration w fuel none v nm = none := by
  refine ⟨?_, ?_, ?_, ?_, ?_, rfl, rfl, rfl, rfl, rfl⟩
  · simp [addFieldToStruct, hM]
  · simp [finishAggregateInitialization, hM]
  · simp [findEnumVariant, hM]
  · simp [getEnumDiscriminantLocation, hM]
  · simp [astGetCABITypeDeclaration, hM]

/-- C8 witness: on the world whose only type system is not a Motoko
context, every operation fails safely on its handles. -/
theorem foreign_system_ops_fail_safely_witness :
    addFieldToStruct exForeignW 0 (some ⟨0, 1⟩) "y" (some ⟨0, 0⟩) 4 false 0 =
      exForeignW ∧
    finishAggregateInitialization exForeignW (some ⟨0, 1⟩) = exForeignW ∧
    findEnumVariant exForeignW (some ⟨0, 1⟩) 0 = none ∧
    getEnumDiscriminantLocation exForeignW (some ⟨0, 1⟩) = none ∧
    astGetCABITypeDeclaration exForeignW 10 (some ⟨0, 1⟩) "v" ⟨[], 0, ""⟩ =
      none := by
  have hmain := foreign_system_ops_fail_safely exForeignW 0 ⟨0, 1⟩ rfl "y"
    (some ⟨0, 0⟩) 4 false 0 0 10 "v" ⟨[], 0, ""⟩
  exact ⟨hmain.1, hmain.2.1, hmain.2.2.1, hmain.2.2.2.1, hmain.2.2.2.2.1⟩

end MotokoModel
